import Mathlib

/-!
Verification development for the Voice-Agent repository.

The repository ships two kinds of code relevant to the properties below:

* Convex mutations/queries/actions under `convex/` (`rag.ts`, and the
  analytics file bundling `phoneConfigs`, `organizations`, ...).  These are
  embedded directly from the TypeScript source.  Convex mutations run as
  serializable transactions: a thrown error aborts the transaction, so a
  mutation is modelled as `Except String (State × Result)` where `.error`
  leaves the state untouched.

* The SPL decision cascade (Stage 0 validation, Stage 1a lexical matching,
  Stage 1b semantic matching, Stage 2 generative fallback, the pattern
  store with learning and auto-deactivation).  The repository contains only
  its design document (`SPL_IMPLEMENTATION_PLAN.md`); no cascade code
  exists in the sources.  Those definitions are therefore modelled from the
  specification text and are marked `Modelled from the spec:` individually.

Scores and thresholds are rational numbers (`ℚ`).  External providers are
parameters: the embedding client is an `Option (List ℚ)` result (`none` =
provider failure/timeout), string similarity and vector similarity are
function parameters, since their numeric definitions live outside the
modelled logic.
-/

/-- `leadsWith needle hay` is true when `needle` is an initial segment of
`hay` (character lists). -/
def leadsWith : List Char → List Char → Bool
  | [], _ => true
  | _ :: _, [] => false
  | n :: ns, h :: hs => n == h && leadsWith ns hs

/-- `subListOf needle hay` is true when `needle` occurs contiguously inside
`hay`. -/
def subListOf : List Char → List Char → Bool
  | [], _ => true
  | _ :: _, [] => false
  | n :: ns, h :: hs => leadsWith (n :: ns) (h :: hs) || subListOf (n :: ns) hs

/-- `substrOf hay needle` : substring containment on strings. -/
def substrOf (hay needle : String) : Bool :=
  subListOf needle.toList hay.toList

/-- Modelled from the spec: the `Pattern` record of §3 (data model of the
SPL pattern store, which has no implementation under the sources).  `ns` is
the spec's `namespace` field (a Lean keyword).  `feedbackCount` counts the
feedback observations behind `successRate`; `exampleEmbeddings` are the
precomputed vectors of `exampleQueries`. -/
structure Pattern where
  id : Nat
  key : String
  ns : String
  keywords : List String
  exampleQueries : List String
  exampleEmbeddings : List (List ℚ)
  cachedResponse : String
  responseType : String
  domain : String
  isActive : Bool
  hitCount : Nat
  successRate : ℚ
  feedbackCount : Nat
  confidence : ℚ
  createdAt : Nat
deriving DecidableEq

/-- Modelled from the spec: the configuration surface of §6 consumed by the
cascade (rollout fields are gated outside the cascade and omitted). -/
structure SPLConfig where
  minValidationLength : Nat
  maxValidationLength : Nat
  blocklist : List String
  fuzzyThreshold : ℚ
  semanticThreshold : ℚ
  learningConfidenceThreshold : ℚ
  deactivationSuccessFloor : ℚ
  deactivationMinSamples : Nat
deriving DecidableEq

/-- Modelled from the spec: default thresholds — fuzzy 0.80 (§4.2),
semantic 0.75 (§4.3 and the plan's "Threshold: 0.75 for match"), learning
0.90 (§4.4), deactivation floor 0.60 (the plan's "<60% success");
`minValidationLength` 2 is §8 Scenario 4; the remaining values are chosen
(the spec fixes no numbers for them). -/
def defaultConfig : SPLConfig where
  minValidationLength := 2
  maxValidationLength := 500
  blocklist := []
  fuzzyThreshold := mkRat 4 5
  semanticThreshold := mkRat 3 4
  learningConfidenceThreshold := mkRat 9 10
  deactivationSuccessFloor := mkRat 3 5
  deactivationMinSamples := 5

/-- Outcome of Stage 0. -/
inductive ValidationResult
  | pass
  | reject (reason : String)
deriving DecidableEq

/-- Modelled from the spec: §4.1 Validator (Stage 0), checks in order —
too short, too long, blocklisted substring, rate limiter (modelled by the
remaining token budget of the per-tenant bucket). -/
def validate (cfg : SPLConfig) (rateRemaining : Nat) (utt : String) : ValidationResult :=
  if utt.length < cfg.minValidationLength then .reject "too short"
  else if cfg.maxValidationLength < utt.length then .reject "too long"
  else if cfg.blocklist.any (fun b => substrOf utt b) then .reject "blocked"
  else if rateRemaining == 0 then .reject "rate limited"
  else .pass

/-- Some keyword of `p` is contained in the utterance. -/
def keywordContained (utt : String) (p : Pattern) : Bool :=
  p.keywords.any (fun k => substrOf utt k)

/-- Modelled from the spec: §4.2 pass (a) — exact/substring containment
against each pattern's keyword set; the first containment match wins. -/
def exactPass (utt : String) (pats : List Pattern) : Option Pattern :=
  pats.find? (fun p => p.isActive && keywordContained utt p)

/-- Modelled from the spec: the fuzzy score of one pattern — the best
string-similarity of the utterance against its keywords and example
phrases, `fuzzy` being the edit-distance-based ratio of §4.2. -/
def patternFuzzyScore (fuzzy : String → String → ℚ) (utt : String) (p : Pattern) : ℚ :=
  ((p.keywords ++ p.exampleQueries).map (fun s => fuzzy utt s)).foldl max 0

/-- Modelled from the spec: candidate selection order of §4.2/§4.3 —
higher score wins, ties broken by higher `hitCount`, then by most recent
creation. -/
def pickBetter (a b : Pattern × ℚ) : Pattern × ℚ :=
  if a.2 < b.2 then b
  else if b.2 < a.2 then a
  else if a.1.hitCount < b.1.hitCount then b
  else if b.1.hitCount < a.1.hitCount then a
  else if a.1.createdAt < b.1.createdAt then b
  else a

/-- Modelled from the spec: §4.2 pass (b) — the active pattern with the
highest fuzzy score, accepted above the fuzzy-acceptance threshold. -/
def bestFuzzy (fuzzy : String → String → ℚ) (cfg : SPLConfig) (utt : String)
    (pats : List Pattern) : Option (Pattern × ℚ) :=
  match (pats.filter (fun p => p.isActive)).map (fun p => (p, patternFuzzyScore fuzzy utt p)) with
  | [] => none
  | c :: cs =>
    if cfg.fuzzyThreshold ≤ (cs.foldl pickBetter c).2 then some (cs.foldl pickBetter c)
    else none

/-- Outcome of Stage 1b (§4.3): hit, miss, or provider failure. -/
inductive SemanticResult
  | hit (p : Pattern) (score : ℚ)
  | miss
  | providerError
deriving DecidableEq

/-- Modelled from the spec: every (active pattern, example-vector) pair
with its similarity against the utterance embedding `v`. -/
def semCands (sim : List ℚ → List ℚ → ℚ) (v : List ℚ) (pats : List Pattern) :
    List (Pattern × ℚ) :=
  (pats.filter (fun p => p.isActive)).flatMap
    (fun p => p.exampleEmbeddings.map (fun e => (p, sim v e)))

/-- Modelled from the spec: §4.3 Semantic Matcher (Stage 1b).  The
embedding client's answer for the utterance arrives as `embedResult`
(`none` = failure or timeout, returned as `providerError`); the single
highest-scoring pair is accepted only when its score meets or exceeds the
semantic-acceptance threshold. -/
def semanticMatch (sim : List ℚ → List ℚ → ℚ) (cfg : SPLConfig)
    (embedResult : Option (List ℚ)) (pats : List Pattern) : SemanticResult :=
  match embedResult with
  | none => .providerError
  | some v =>
    match semCands sim v pats with
    | [] => .miss
    | c :: cs =>
      if cfg.semanticThreshold ≤ (cs.foldl pickBetter c).2 then
        .hit (cs.foldl pickBetter c).1 (cs.foldl pickBetter c).2
      else .miss

/-- The stage that produced the terminal decision. -/
inductive Stage
  | s0
  | s1a
  | s1b
  | s2
deriving DecidableEq

/-- The matching technique of the terminal decision (§3 `method`). -/
inductive Method
  | validationReject
  | exactLex
  | fuzzyLex
  | embedding
  | fallback
deriving DecidableEq

/-- Modelled from the spec: the `Decision` record of §3.  `matched` keeps
the pattern behind a Stage 1a/1b hit (the audit trail of `matchScore`). -/
structure Decision where
  shouldEscalate : Bool
  response : Option String
  stage : Stage
  method : Method
  matchScore : ℚ
  matched : Option Pattern
deriving DecidableEq

/-- A cascade run paired with its provider-invocation record: whether the
embedding client and the generative fallback client were called. -/
structure CascadeResult where
  decision : Decision
  embeddingCalled : Bool
  fallbackCalled : Bool
deriving DecidableEq

/-- Modelled from the spec: §4.5 Decision Cascade over one request —
`Start → Stage0 → {Reject | Stage1a} → {Hit | Stage1b} → {Hit | Stage2}`,
no backward transitions.  Stage 2 always produces `fallbackResponse`; a
Stage 1b miss or provider error falls open to Stage 2 (§4.3, §7). -/
def cascade (fuzzy : String → String → ℚ) (sim : List ℚ → List ℚ → ℚ)
    (cfg : SPLConfig) (embedResult : Option (List ℚ)) (fallbackResponse : String)
    (rateRemaining : Nat) (utt : String) (pats : List Pattern) : CascadeResult :=
  match validate cfg rateRemaining utt with
  | .reject _ =>
    ⟨⟨false, some "Could you rephrase that?", .s0, .validationReject, 0, none⟩, false, false⟩
  | .pass =>
    match exactPass utt pats with
    | some p =>
      ⟨⟨false, some p.cachedResponse, .s1a, .exactLex, 1, some p⟩, false, false⟩
    | none =>
      match bestFuzzy fuzzy cfg utt pats with
      | some c =>
        ⟨⟨false, some c.1.cachedResponse, .s1a, .fuzzyLex, c.2, some c.1⟩, false, false⟩
      | none =>
        match semanticMatch sim cfg embedResult pats with
        | .hit p s =>
          ⟨⟨false, some p.cachedResponse, .s1b, .embedding, s, some p⟩, true, false⟩
        | .miss =>
          ⟨⟨true, some fallbackResponse, .s2, .fallback, 0, none⟩, true, true⟩
        | .providerError =>
          ⟨⟨true, some fallbackResponse, .s2, .fallback, 0, none⟩, true, true⟩

/-- Modelled from the spec: `getActivePatterns(namespace)` of §6 — the
namespace-scoped active snapshot every matcher operates on. -/
def getActivePatterns (store : List Pattern) (ns : String) : List Pattern :=
  store.filter (fun p => p.ns == ns && p.isActive)

/-- The cascade of one request in namespace `ns` over the shared store:
it obtains the active-pattern snapshot once and runs the stages on it. -/
def cascadeNs (fuzzy : String → String → ℚ) (sim : List ℚ → List ℚ → ℚ)
    (cfg : SPLConfig) (embedResult : Option (List ℚ)) (fallbackResponse : String)
    (rateRemaining : Nat) (store : List Pattern) (ns : String) (utt : String) : CascadeResult :=
  cascade fuzzy sim cfg embedResult fallbackResponse rateRemaining utt
    (getActivePatterns store ns)

/-- Modelled from the spec: the success-rate value after one feedback
observation — a simple all-time ratio (the spec's §9 open question; the
choice is stated here). -/
def nextRate (p : Pattern) (success : Bool) : ℚ :=
  (p.successRate * p.feedbackCount + (if success then 1 else 0)) / (p.feedbackCount + 1)

/-- Modelled from the spec: `updateSuccessRate(patternId, success)` of §6
on one pattern — recompute the rate and auto-deactivate when it drops
below `deactivationSuccessFloor` after at least `deactivationMinSamples`
observations (§3 lifecycle). -/
def updateSuccessRate (cfg : SPLConfig) (p : Pattern) (success : Bool) : Pattern :=
  let r := nextRate p success
  let n := p.feedbackCount + 1
  { p with
    successRate := r
    feedbackCount := n
    isActive :=
      if cfg.deactivationMinSamples ≤ n ∧ r < cfg.deactivationSuccessFloor then false
      else p.isActive }

/-- Modelled from the spec: one feedback event applied to the store — the
pattern is updated in place (replace-by-key, §5), never removed. -/
def recordFeedback (cfg : SPLConfig) (store : List Pattern) (id : Nat)
    (success : Bool) : List Pattern :=
  store.map (fun p => if p.id == id then updateSuccessRate cfg p success else p)

/-- Modelled from the spec: `incrementHitCount(patternId)` of §6 as one
atomic store update — §5 demands a serialized/compare-and-swap path, and
Convex mutations are serializable transactions, so each increment is one
indivisible step. -/
def incrementHitCount (store : List Pattern) (id : Nat) : List Pattern :=
  store.map (fun p => if p.id == id then { p with hitCount := p.hitCount + 1 } else p)

/-- A serialization of concurrent hit events: the store after executing
the atomic increments of `sched` in that interleaving order. -/
def applyHits (store : List Pattern) (sched : List Nat) : List Pattern :=
  sched.foldl incrementHitCount store

/-- The hit count recorded for pattern `id` (0 when absent). -/
def hitCountOf (store : List Pattern) (id : Nat) : Nat :=
  match store.find? (fun p => p.id == id) with
  | some p => p.hitCount
  | none => 0

/-- How many events of a schedule target pattern `id`. -/
def countHits (id : Nat) (sched : List Nat) : Nat :=
  (sched.filter (fun j => j == id)).length

/-- One knowledge-base entry of the RAG component (`@convex-dev/rag`),
with the namespace it was ingested under. -/
structure RagEntry where
  entryId : Nat
  ns : String
  key : Option String
  title : Option String
  text : String
  status : String
deriving DecidableEq

/-- The knowledge-base store backing `rag.ts`. -/
structure RagState where
  entries : List RagEntry
  nextId : Nat
deriving DecidableEq

/-- The record `ingest` returns (`{ entryId, status }` in `rag.ts`). -/
structure IngestResult where
  entryId : Nat
  status : String
deriving DecidableEq

/-- Modelled from the spec: `rag.add` of the `@convex-dev/rag` component
(not in the sources) — writes one entry under the given namespace and
returns its id and status. -/
def ragAdd (st : RagState) (ns : String) (key title : Option String) (text : String) :
    RagState × IngestResult :=
  ({ entries := st.entries ++ [⟨st.nextId, ns, key, title, text, "ready"⟩]
     nextId := st.nextId + 1 },
   ⟨st.nextId, "ready"⟩)

/-- The argument record of the `ingest` action in `rag.ts`. -/
structure IngestArgs where
  ns : String
  key : Option String
  text : Option String
  chunks : Option (List String)
  title : Option String
deriving DecidableEq

/-- JavaScript truthiness of the optional `text` argument: `!args.text`
is true for an absent value and for the empty string. -/
def jsTruthyText : Option String → Bool
  | none => false
  | some s => s != ""

/-- The `ingest` action of `rag.ts`: throws "Must provide either text or
chunks" when `!args.text && !args.chunks` (JS truthiness: absent or empty
`text`, absent `chunks` — an array, even empty, is truthy), else takes the
`text` branch when `args.text` is truthy and the `chunks` branch
otherwise. -/
def ingest (st : RagState) (args : IngestArgs) : Except String (RagState × IngestResult) :=
  if !jsTruthyText args.text && args.chunks.isNone then
    .error "Must provide either text or chunks"
  else if jsTruthyText args.text then
    .ok (ragAdd st args.ns args.key args.title (args.text.getD ""))
  else
    .ok (ragAdd st args.ns args.key args.title (String.intercalate "\n" (args.chunks.getD [])))

/-- Modelled from the spec: `rag.search` of the `@convex-dev/rag`
component (not in the sources) — namespace-scoped vector search returning
only entries of the requested namespace whose score meets the threshold
("all lookups ... are namespace-scoped", §3).  `score` stands for the
embedding similarity of each entry against the query; ranking order is
abstracted. -/
def ragSearch (score : RagEntry → ℚ) (st : RagState) (ns : String)
    (threshold : ℚ) (limit : Nat) : List (RagEntry × ℚ) :=
  ((st.entries.filter (fun e => e.ns == ns && decide (threshold ≤ score e))).map
    (fun e => (e, score e))).take limit

/-- The argument record of the `search` action in `rag.ts`. -/
structure SearchArgs where
  ns : String
  query : String
  limit : Option Nat
  minScore : Option ℚ
deriving DecidableEq

/-- The `search` action of `rag.ts`: delegates to `rag.search` with
`limit ?? 5` and `vectorScoreThreshold: minScore ?? 0.3`. -/
def search (score : RagEntry → ℚ) (st : RagState) (args : SearchArgs) :
    List (RagEntry × ℚ) :=
  ragSearch score st args.ns (args.minScore.getD (mkRat 3 10)) (args.limit.getD 5)

/-- Status literal union of the `organizations.create` arguments. -/
inductive OrgStatus
  | active
  | inactive
deriving DecidableEq

/-- One row of the `organizations` table. -/
structure OrgDoc where
  id : Nat
  slug : String
  name : String
  billingCustomerId : Option String
  status : OrgStatus
  config : Option String
  createdAt : Nat
deriving DecidableEq

/-- The `organizations` table with its id counter. -/
structure OrgTable where
  rows : List OrgDoc
  nextId : Nat
deriving DecidableEq

/-- The argument record of `organizations.create`. -/
structure OrgCreateArgs where
  slug : String
  name : String
  billingCustomerId : Option String
  status : OrgStatus
  config : Option String
deriving DecidableEq

/-- Convex `withIndex("by_slug").unique()`: `none` on no match, the single
match otherwise; `.unique()` throws when several rows match. -/
def uniqueBySlug (t : OrgTable) (slug : String) : Except String (Option OrgDoc) :=
  match t.rows.filter (fun d => d.slug == slug) with
  | [] => .ok none
  | [d] => .ok (some d)
  | _ => .error "unique: more than one document matches"

/-- `organizations.create`: return the existing document's id when one
with this slug exists, else insert a fresh row. -/
def orgCreate (t : OrgTable) (args : OrgCreateArgs) (now : Nat) :
    Except String (OrgTable × Nat) :=
  match uniqueBySlug t args.slug with
  | .error e => .error e
  | .ok (some d) => .ok (t, d.id)
  | .ok none =>
    .ok ({ rows := t.rows ++ [{ id := t.nextId, slug := args.slug, name := args.name,
                                billingCustomerId := args.billingCustomerId,
                                status := args.status, config := args.config,
                                createdAt := now }]
           nextId := t.nextId + 1 }, t.nextId)

/-- One row of the `phoneConfigs` table. -/
structure PhoneConfig where
  id : Nat
  phoneNumber : String
  organizationId : String
  jobType : String
  configJson : String
  agentId : Option String
  isActive : Bool
  createdAt : Nat
  updatedAt : Nat
deriving DecidableEq

/-- The `phoneConfigs` table with its id counter. -/
structure PhoneTable where
  rows : List PhoneConfig
  nextId : Nat
deriving DecidableEq

/-- The argument record of `phoneConfigs.create`. -/
structure PhoneCreateArgs where
  phoneNumber : String
  organizationId : String
  jobType : String
  configJson : String
  agentId : Option String
deriving DecidableEq

/-- Convex `withIndex("by_phone_number").unique()` on `phoneConfigs`. -/
def uniqueByPhone (t : PhoneTable) (n : String) : Except String (Option PhoneConfig) :=
  match t.rows.filter (fun c => c.phoneNumber == n) with
  | [] => .ok none
  | [c] => .ok (some c)
  | _ => .error "unique: more than one document matches"

/-- `phoneConfigs.create`: throws "... already configured" when any row
with this phone number exists (the lookup does not filter on `isActive`),
else inserts an active row. -/
def phoneCreate (t : PhoneTable) (args : PhoneCreateArgs) (now : Nat) :
    Except String (PhoneTable × Nat) :=
  match uniqueByPhone t args.phoneNumber with
  | .error e => .error e
  | .ok (some _) =>
    .error ("Phone number " ++ args.phoneNumber ++ " already configured")
  | .ok none =>
    .ok ({ rows := t.rows ++ [{ id := t.nextId, phoneNumber := args.phoneNumber,
                                organizationId := args.organizationId,
                                jobType := args.jobType, configJson := args.configJson,
                                agentId := args.agentId, isActive := true,
                                createdAt := now, updatedAt := now }]
           nextId := t.nextId + 1 }, t.nextId)

/-- `phoneConfigs.deactivate`: soft delete — patches `isActive := false`
on the row with this number, keeping the row. -/
def phoneDeactivate (t : PhoneTable) (n : String) (now : Nat) :
    Except String PhoneTable :=
  match uniqueByPhone t n with
  | .error e => .error e
  | .ok none => .error ("Phone config not found: " ++ n)
  | .ok (some c) =>
    .ok { t with rows := t.rows.map (fun r =>
            if r.id == c.id then { r with isActive := false, updatedAt := now } else r) }

/-- Concrete fixture: an active "business hours" pattern of namespace
`orgA`, used by the witnesses. -/
def wPattern : Pattern where
  id := 1
  key := "business_hours"
  ns := "orgA"
  keywords := ["hours", "open", "close"]
  exampleQueries := ["What are your hours?"]
  exampleEmbeddings := [[1, 0]]
  cachedResponse := "We are open 9 to 5."
  responseType := "static"
  domain := "restaurant"
  isActive := true
  hitCount := 3
  successRate := 1
  feedbackCount := 0
  confidence := 1
  createdAt := 10

/-- Concrete fixture: a knowledge-base entry of namespace `orgA`. -/
def wEntry : RagEntry where
  entryId := 0
  ns := "orgA"
  key := none
  title := some "menu"
  text := "We serve coffee."
  status := "ready"

/-- Concrete fixture: a pattern one bad feedback event away from the
deactivation floor (4 observations at rate 1/2). -/
def wDeclining : Pattern :=
  { wPattern with feedbackCount := 4, successRate := mkRat 1 2 }

/-- Concrete fixture: an organizations table holding one row. -/
def wOrgTable : OrgTable where
  rows := [{ id := 7, slug := "acme", name := "Acme Diner", billingCustomerId := none,
             status := OrgStatus.active, config := none, createdAt := 100 }]
  nextId := 8

/-- Concrete fixture: a phone-configs table holding one row. -/
def wPhoneTable : PhoneTable where
  rows := [{ id := 3, phoneNumber := "+15551234567", organizationId := "org1",
             jobType := "restaurant", configJson := "\x7b\x7d", agentId := none,
             isActive := true, createdAt := 50, updatedAt := 50 }]
  nextId := 4

theorem pickBetter_eq_or (a b : Pattern × ℚ) : pickBetter a b = a ∨ pickBetter a b = b := by
  unfold pickBetter
  repeat' split
  all_goals simp

theorem foldl_pickBetter_mem (c : Pattern × ℚ) (cs : List (Pattern × ℚ)) :
    cs.foldl pickBetter c ∈ c :: cs := by
  induction cs generalizing c with
  | nil => simp
  | cons x xs ih =>
    simp only [List.foldl_cons]
    have h2 := ih (pickBetter c x)
    rcases pickBetter_eq_or c x with h1 | h1 <;> rw [h1] at h2 ⊢ <;>
      rcases List.mem_cons.1 h2 with h3 | h3 <;> simp [h3]

theorem exactPass_spec (utt : String) (pats : List Pattern) (p : Pattern)
    (h : exactPass utt pats = some p) :
    p ∈ pats ∧ p.isActive = true ∧ keywordContained utt p = true := by
  refine ⟨List.mem_of_find?_eq_some h, ?_, ?_⟩ <;>
    have h2 := List.find?_some h <;>
    simp only [Bool.and_eq_true] at h2
  · exact h2.1
  · exact h2.2

theorem bestFuzzy_spec (fuzzy : String → String → ℚ) (cfg : SPLConfig) (utt : String)
    (pats : List Pattern) (c : Pattern × ℚ) (h : bestFuzzy fuzzy cfg utt pats = some c) :
    c.1 ∈ pats ∧ c.1.isActive = true ∧ cfg.fuzzyThreshold ≤ c.2 := by
  unfold bestFuzzy at h
  split at h
  · exact absurd h (by simp)
  next c0 cs0 heq =>
    split at h
    next hth =>
      injection h with h
      subst h
      have hm : cs0.foldl pickBetter c0 ∈ c0 :: cs0 := foldl_pickBetter_mem c0 cs0
      rw [← heq] at hm
      obtain ⟨p, hp, hpc⟩ := List.mem_map.1 hm
      have h1 := List.mem_filter.1 hp
      refine ⟨?_, ?_, hth⟩
      · rw [← hpc]; exact h1.1
      · rw [← hpc]; exact h1.2
    · exact absurd h (by simp)

theorem semanticMatch_hit_spec (sim : List ℚ → List ℚ → ℚ) (cfg : SPLConfig)
    (er : Option (List ℚ)) (pats : List Pattern) (p : Pattern) (s : ℚ)
    (h : semanticMatch sim cfg er pats = .hit p s) :
    p ∈ pats ∧ p.isActive = true ∧ cfg.semanticThreshold ≤ s := by
  unfold semanticMatch at h
  split at h
  · exact absurd h (by simp)
  next v heq0 =>
    split at h
    · exact absurd h (by simp)
    next c0 cs0 heq =>
      split at h
      next hth =>
        injection h with h1 h2
        have hm : cs0.foldl pickBetter c0 ∈ c0 :: cs0 := foldl_pickBetter_mem c0 cs0
        rw [← heq] at hm
        obtain ⟨q, hq, hqc⟩ := List.mem_flatMap.1 hm
        obtain ⟨e, _, hec⟩ := List.mem_map.1 hqc
        have h3 := List.mem_filter.1 hq
        have hfst : (cs0.foldl pickBetter c0).1 = q := by rw [← hec]
        refine ⟨?_, ?_, ?_⟩
        · rw [← h1, hfst]; exact h3.1
        · rw [← h1, hfst]; exact h3.2
        · rw [← h2]; exact hth
      · exact absurd h (by simp)

theorem cascade_matched_spec (fuzzy : String → String → ℚ) (sim : List ℚ → List ℚ → ℚ)
    (cfg : SPLConfig) (er : Option (List ℚ)) (fb : String) (rate : Nat) (utt : String)
    (pats : List Pattern) (q : Pattern)
    (h : (cascade fuzzy sim cfg er fb rate utt pats).decision.matched = some q) :
    q ∈ pats ∧ q.isActive = true := by
  unfold cascade at h
  split at h
  · exact absurd h (by simp)
  · split at h
    next p hx =>
      simp only [Decision.matched] at h
      injection h with h
      subst h
      exact ⟨(exactPass_spec utt pats p hx).1, (exactPass_spec utt pats p hx).2.1⟩
    · split at h
      next c hf =>
        simp only [Decision.matched] at h
        injection h with h
        subst h
        exact ⟨(bestFuzzy_spec fuzzy cfg utt pats c hf).1,
               (bestFuzzy_spec fuzzy cfg utt pats c hf).2.1⟩
      · split at h
        next p s hs =>
          simp only [Decision.matched] at h
          injection h with h
          subst h
          exact ⟨(semanticMatch_hit_spec sim cfg er pats p s hs).1,
                 (semanticMatch_hit_spec sim cfg er pats p s hs).2.1⟩
        · exact absurd h (by simp)
        · exact absurd h (by simp)

theorem cascadeNs_matched_spec (fuzzy : String → String → ℚ) (sim : List ℚ → List ℚ → ℚ)
    (cfg : SPLConfig) (er : Option (List ℚ)) (fb : String) (rate : Nat)
    (store : List Pattern) (ns : String) (utt : String) (q : Pattern)
    (h : (cascadeNs fuzzy sim cfg er fb rate store ns utt).decision.matched = some q) :
    q ∈ store ∧ q.ns = ns ∧ q.isActive = true := by
  have h2 := cascade_matched_spec fuzzy sim cfg er fb rate utt (getActivePatterns store ns) q h
  have h3 := List.mem_filter.1 h2.1
  have h4 : (q.ns == ns) = true ∧ q.isActive = true := by
    have h5 := h3.2
    rw [Bool.and_eq_true] at h5
    exact h5
  exact ⟨h3.1, eq_of_beq h4.1, h2.2⟩

theorem validate_reject_of_length (cfg : SPLConfig) (rate : Nat) (utt : String)
    (h : utt.length < cfg.minValidationLength ∨ cfg.maxValidationLength < utt.length) :
    ∃ r, validate cfg rate utt = ValidationResult.reject r := by
  unfold validate
  rcases h with h | h
  · exact ⟨_, if_pos h⟩
  · by_cases hs : utt.length < cfg.minValidationLength
    · exact ⟨_, if_pos hs⟩
    · rw [if_neg hs, if_pos h]
      exact ⟨_, rfl⟩

theorem increment_preserves_id (j : Nat) (p : Pattern) :
    (if p.id == j then { p with hitCount := p.hitCount + 1 } else p).id = p.id := by
  split <;> rfl

theorem hitCountOf_increment (store : List Pattern) (j id : Nat)
    (h : ∃ p ∈ store, p.id = id) :
    hitCountOf (incrementHitCount store j) id
      = hitCountOf store id + (if j = id then 1 else 0) := by
  have hpred : ((fun p : Pattern => p.id == id) ∘
      (fun p => if p.id == j then { p with hitCount := p.hitCount + 1 } else p))
      = fun p : Pattern => p.id == id := by
    funext p
    simp only [Function.comp]
    rw [increment_preserves_id]
  unfold hitCountOf incrementHitCount
  rw [List.find?_map, hpred]
  obtain ⟨p, hp, hid⟩ := h
  have hsome : (store.find? (fun p => p.id == id)).isSome :=
    List.find?_isSome.2 ⟨p, hp, by simp [hid]⟩
  obtain ⟨q, hq⟩ := Option.isSome_iff_exists.1 hsome
  rw [hq]
  have hqid : q.id = id := by
    have h2 := List.find?_some hq
    simpa using h2
  simp only [Option.map_some']
  by_cases hj : j = id
  · subst hj
    simp [hqid]
  · have hne : (q.id == j) = false := by
      simp only [beq_eq_false_iff_ne, ne_eq, hqid]
      omega
    simp [hne, hj]

theorem increment_keeps_presence (store : List Pattern) (j id : Nat)
    (h : ∃ p ∈ store, p.id = id) :
    ∃ p ∈ incrementHitCount store j, p.id = id := by
  obtain ⟨p, hp, hid⟩ := h
  refine ⟨if p.id == j then { p with hitCount := p.hitCount + 1 } else p, ?_, ?_⟩
  · exact List.mem_map.2 ⟨p, hp, rfl⟩
  · rw [increment_preserves_id]
    exact hid

theorem countHits_cons (id j : Nat) (js : List Nat) :
    countHits id (j :: js) = (if j = id then 1 else 0) + countHits id js := by
  unfold countHits
  rw [List.filter_cons]
  by_cases hj : j = id
  · simp [hj]
    omega
  · simp [hj]

theorem uniqueBySlug_some (t : OrgTable) (slug : String) (d : OrgDoc)
    (h : uniqueBySlug t slug = .ok (some d)) :
    d ∈ t.rows ∧ d.slug = slug := by
  unfold uniqueBySlug at h
  split at h
  · exact absurd h (by simp)
  next x heq =>
    have hx : x = d := by
      injection h with h
      injection h
    subst hx
    have hm : x ∈ t.rows.filter (fun r => r.slug == slug) := by
      rw [heq]
      exact List.mem_singleton.2 rfl
    have h2 := List.mem_filter.1 hm
    exact ⟨h2.1, eq_of_beq h2.2⟩
  · exact absurd h (by simp)

theorem uniqueByPhone_some (t : PhoneTable) (n : String) (c : PhoneConfig)
    (h : uniqueByPhone t n = .ok (some c)) :
    c ∈ t.rows ∧ c.phoneNumber = n := by
  unfold uniqueByPhone at h
  split at h
  · exact absurd h (by simp)
  next x heq =>
    have hx : x = c := by
      injection h with h
      injection h
    subst hx
    have hm : x ∈ t.rows.filter (fun r => r.phoneNumber == n) := by
      rw [heq]
      exact List.mem_singleton.2 rfl
    have h2 := List.mem_filter.1 hm
    exact ⟨h2.1, eq_of_beq h2.2⟩
  · exact absurd h (by simp)

theorem uniqueByPhone_of_short (t : PhoneTable) (n : String)
    (h : (t.rows.filter (fun c => c.phoneNumber == n)).length ≤ 1) :
    (t.rows.filter (fun c => c.phoneNumber == n) = [] ∧ uniqueByPhone t n = .ok none) ∨
    (∃ c, t.rows.filter (fun c => c.phoneNumber == n) = [c] ∧
      uniqueByPhone t n = .ok (some c)) := by
  match hf : t.rows.filter (fun c => c.phoneNumber == n) with
  | [] =>
    refine Or.inl ⟨hf, ?_⟩
    unfold uniqueByPhone
    rw [hf]
  | [c] =>
    refine Or.inr ⟨c, hf, ?_⟩
    unfold uniqueByPhone
    rw [hf]
  | a :: b :: rest =>
    rw [hf] at h
    simp at h

theorem filterPhone_map_preserve (l : List PhoneConfig) (g : PhoneConfig → PhoneConfig)
    (hg : ∀ r, (g r).phoneNumber = r.phoneNumber) (n : String) :
    ((l.map g).filter (fun c => c.phoneNumber == n)).length
      = (l.filter (fun c => c.phoneNumber == n)).length := by
  induction l with
  | nil => rfl
  | cons x xs ih =>
    simp only [List.map_cons, List.filter_cons, hg]
    by_cases hx : (x.phoneNumber == n) = true
    · rw [hx]
      simp [ih]
    · rw [Bool.not_eq_true] at hx
      rw [hx]
      simp [ih]

theorem phoneDeactivate_ok_shape (t : PhoneTable) (n : String) (now : Nat) (t2 : PhoneTable)
    (h : phoneDeactivate t n now = .ok t2) :
    ∃ c, uniqueByPhone t n = .ok (some c) ∧
      t2.rows = t.rows.map (fun r =>
        if r.id == c.id then { r with isActive := false, updatedAt := now } else r) := by
  unfold phoneDeactivate at h
  split at h
  · exact absurd h (by simp)
  · exact absurd h (by simp)
  next c hc =>
    refine ⟨c, hc, ?_⟩
    injection h with h
    rw [← h]

theorem phoneCreate_error_of_exists (t : PhoneTable) (args : PhoneCreateArgs) (now : Nat)
    (h : (t.rows.filter (fun c => c.phoneNumber == args.phoneNumber)).length ≤ 1)
    (hex : ∃ c ∈ t.rows, c.phoneNumber = args.phoneNumber) :
    phoneCreate t args now
      = .error ("Phone number " ++ args.phoneNumber ++ " already configured") := by
  rcases uniqueByPhone_of_short t args.phoneNumber h with ⟨hf, hu⟩ | ⟨c, _, hu⟩
  · obtain ⟨c, hc, hcn⟩ := hex
    have : c ∈ t.rows.filter (fun c => c.phoneNumber == args.phoneNumber) :=
      List.mem_filter.2 ⟨hc, by simp [hcn]⟩
    rw [hf] at this
    exact absurd this (by simp)
  · unfold phoneCreate
    rw [hu]

theorem phoneCreate_ok_of_absent (t : PhoneTable) (args : PhoneCreateArgs) (now : Nat)
    (h : (t.rows.filter (fun c => c.phoneNumber == args.phoneNumber)).length ≤ 1)
    (hab : ¬ ∃ c ∈ t.rows, c.phoneNumber = args.phoneNumber) :
    ∃ t2 r, phoneCreate t args now = .ok (t2, r) := by
  rcases uniqueByPhone_of_short t args.phoneNumber h with ⟨_, hu⟩ | ⟨c, hf, hu⟩
  · unfold phoneCreate
    rw [hu]
    exact ⟨_, _, rfl⟩
  · exfalso
    have hm : c ∈ t.rows.filter (fun r => r.phoneNumber == args.phoneNumber) := by
      rw [hf]
      exact List.mem_singleton.2 rfl
    have h2 := List.mem_filter.1 hm
    exact hab ⟨c, h2.1, eq_of_beq h2.2⟩

/-- Claim C2: semantic matching never accepts a hit below the configured
semantic-acceptance threshold — every `semanticMatch` hit scores at least
`semanticThreshold` — and the default value of that threshold is 0.75. -/
theorem semantic_threshold_floor (sim : List ℚ → List ℚ → ℚ) (cfg : SPLConfig)
    (er : Option (List ℚ)) (pats : List Pattern) (p : Pattern) (s : ℚ)
    (h : semanticMatch sim cfg er pats = SemanticResult.hit p s) :
    cfg.semanticThreshold ≤ s ∧ defaultConfig.semanticThreshold = 3 / 4 := by
  refine ⟨(semanticMatch_hit_spec sim cfg er pats p s h).2.2, ?_⟩
  rw [show defaultConfig.semanticThreshold = mkRat 3 4 from rfl, Rat.mkRat_eq_div]
  norm_num

/-- Claim C2 witness: a concrete semantic hit at similarity 4/5 against
the default configuration. -/
theorem semantic_threshold_floor_witness :
    defaultConfig.semanticThreshold ≤ mkRat 4 5 ∧ defaultConfig.semanticThreshold = 3 / 4 :=
  semantic_threshold_floor (fun _ _ => mkRat 4 5) defaultConfig (some [1, 0]) [wPattern]
    wPattern (mkRat 4 5) (by decide)

/-- Claim C3: an utterance shorter than the configured minimum or longer
than the configured maximum yields a Decision with stage 0, and neither
the embedding provider nor the generative fallback provider is invoked. -/
theorem stage0_short_circuit (fuzzy : String → String → ℚ) (sim : List ℚ → List ℚ → ℚ)
    (cfg : SPLConfig) (er : Option (List ℚ)) (fb : String) (rate : Nat)
    (store : List Pattern) (ns : String) (utt : String)
    (h : utt.length < cfg.minValidationLength ∨ cfg.maxValidationLength < utt.length) :
    (cascadeNs fuzzy sim cfg er fb rate store ns utt).decision.stage = Stage.s0 ∧
    (cascadeNs fuzzy sim cfg er fb rate store ns utt).embeddingCalled = false ∧
    (cascadeNs fuzzy sim cfg er fb rate store ns utt).fallbackCalled = false := by
  obtain ⟨r, hr⟩ := validate_reject_of_length cfg rate utt h
  unfold cascadeNs cascade
  rw [hr]
  exact ⟨rfl, rfl, rfl⟩

/-- Claim C3 witness: the one-character utterance of §8 Scenario 4 under
the default configuration. -/
theorem stage0_short_circuit_witness :
    (cascadeNs (fun _ _ => 0) (fun _ _ => 0) defaultConfig (some [1, 0]) "llm" 5
        [wPattern] "orgA" "a").decision.stage = Stage.s0 ∧
    (cascadeNs (fun _ _ => 0) (fun _ _ => 0) defaultConfig (some [1, 0]) "llm" 5
        [wPattern] "orgA" "a").embeddingCalled = false ∧
    (cascadeNs (fun _ _ => 0) (fun _ _ => 0) defaultConfig (some [1, 0]) "llm" 5
        [wPattern] "orgA" "a").fallbackCalled = false :=
  stage0_short_circuit (fun _ _ => 0) (fun _ _ => 0) defaultConfig (some [1, 0]) "llm" 5
    [wPattern] "orgA" "a" (Or.inl (by decide))

/-- Claim C5: when the embedding client fails or times out (`none`) at
Stage 1b, the cascade treats it as a miss and terminates at Stage 2 with
method `fallback`, returning a Decision instead of an error. -/
theorem embedding_failure_fail_open (fuzzy : String → String → ℚ)
    (sim : List ℚ → List ℚ → ℚ) (cfg : SPLConfig) (fb : String) (rate : Nat)
    (store : List Pattern) (ns : String) (utt : String)
    (hv : validate cfg rate utt = ValidationResult.pass)
    (hx : exactPass utt (getActivePatterns store ns) = none)
    (hf : bestFuzzy fuzzy cfg utt (getActivePatterns store ns) = none) :
    cascadeNs fuzzy sim cfg none fb rate store ns utt
      = ⟨⟨true, some fb, Stage.s2, Method.fallback, 0, none⟩, true, true⟩ := by
  unfold cascadeNs cascade
  rw [hv, hx, hf]
  rfl

/-- Claim C5 witness: an embedding timeout over an empty pattern store
falls open to a Stage 2 fallback Decision. -/
theorem embedding_failure_fail_open_witness :
    cascadeNs (fun _ _ => 0) (fun _ _ => 0) defaultConfig none "llm" 5 [] "orgA" "hello"
      = ⟨⟨true, some "llm", Stage.s2, Method.fallback, 0, none⟩, true, true⟩ :=
  embedding_failure_fail_open (fun _ _ => 0) (fun _ _ => 0) defaultConfig "llm" 5 []
    "orgA" "hello" (by decide) rfl rfl

/-- Claim C1: namespace isolation — a pattern of namespace `A` is never
the match behind a request decided in namespace `B ≠ A` (lexical, fuzzy
and semantic matching all draw from the namespace-scoped active snapshot),
and the RAG `search` action never returns an entry ingested under `A` for
a request whose namespace is `B`. -/
theorem namespace_isolation (fuzzy : String → String → ℚ) (sim : List ℚ → List ℚ → ℚ)
    (cfg : SPLConfig) (er : Option (List ℚ)) (fb : String) (rate : Nat)
    (store : List Pattern) (score : RagEntry → ℚ) (st : RagState) (sargs : SearchArgs)
    (A B : String) (p : Pattern) (e : RagEntry) (utt : String) (q : ℚ)
    (hAB : A ≠ B) (hp : p.ns = A) (he : e.ns = A) (hsB : sargs.ns = B) :
    (cascadeNs fuzzy sim cfg er fb rate store B utt).decision.matched ≠ some p ∧
    (e, q) ∉ search score st sargs := by
  constructor
  · intro hmatch
    have h2 := cascadeNs_matched_spec fuzzy sim cfg er fb rate store B utt p hmatch
    apply hAB
    rw [← hp, h2.2.1]
  · intro hmem
    unfold search ragSearch at hmem
    have h3 := List.mem_of_mem_take hmem
    obtain ⟨e2, he2, heq⟩ := List.mem_map.1 h3
    have hee : e2 = e := congrArg Prod.fst heq
    subst hee
    have h4 := List.mem_filter.1 he2
    have h5 : (e2.ns == sargs.ns) = true ∧ decide (Option.getD sargs.minScore (mkRat 3 10) ≤ score e2) = true := by
      have h6 := h4.2
      rw [Bool.and_eq_true] at h6
      exact h6
    apply hAB
    rw [← he, eq_of_beq h5.1, hsB]

/-- Claim C1 witness: the `orgA` pattern and `orgA` knowledge entry are
invisible to a request in `orgB`. -/
theorem namespace_isolation_witness :
    (cascadeNs (fun _ _ => 0) (fun _ _ => mkRat 4 5) defaultConfig (some [1, 0]) "llm" 5
        [wPattern] "orgB" "what are your hours").decision.matched ≠ some wPattern ∧
    (wEntry, mkRat 4 5) ∉
      search (fun _ => mkRat 4 5) ⟨[wEntry], 1⟩ ⟨"orgB", "hours", none, none⟩ :=
  namespace_isolation (fun _ _ => 0) (fun _ _ => mkRat 4 5) defaultConfig (some [1, 0])
    "llm" 5 [wPattern] (fun _ => mkRat 4 5) ⟨[wEntry], 1⟩ ⟨"orgB", "hours", none, none⟩
    "orgA" "orgB" wPattern wEntry "what are your hours" (mkRat 4 5)
    (by decide) rfl rfl rfl

/-- Claim C4: when some active pattern has a keyword contained in the
utterance, Stage 1a (the exact pass) returns such a pattern as a hit
scored exactly 1; the full cascade then terminates at stage 1a whenever
Stage 0 passes, and the embedding client is never called for the request
either way. -/
theorem exact_lexical_hit (fuzzy : String → String → ℚ) (sim : List ℚ → List ℚ → ℚ)
    (cfg : SPLConfig) (er : Option (List ℚ)) (fb : String) (rate : Nat)
    (utt : String) (pats : List Pattern)
    (h : ∃ p ∈ pats, p.isActive = true ∧ keywordContained utt p = true) :
    (∃ p, exactPass utt pats = some p ∧ p.isActive = true ∧ keywordContained utt p = true ∧
      (validate cfg rate utt = ValidationResult.pass →
        (cascade fuzzy sim cfg er fb rate utt pats).decision
          = ⟨false, some p.cachedResponse, Stage.s1a, Method.exactLex, 1, some p⟩)) ∧
    (cascade fuzzy sim cfg er fb rate utt pats).embeddingCalled = false := by
  obtain ⟨p0, hp0, ha0, hk0⟩ := h
  have hsome : (pats.find? (fun p => p.isActive && keywordContained utt p)).isSome :=
    List.find?_isSome.2 ⟨p0, hp0, by simp [ha0, hk0]⟩
  obtain ⟨q, hq⟩ := Option.isSome_iff_exists.1 hsome
  have hq2 : exactPass utt pats = some q := hq
  have hqs := exactPass_spec utt pats q hq2
  constructor
  · refine ⟨q, hq2, hqs.2.1, hqs.2.2, ?_⟩
    intro hv
    unfold cascade
    rw [hv, hq2]
  · unfold cascade
    cases hv : validate cfg rate utt with
    | reject r => rfl
    | pass => rw [hq2]

/-- Claim C4 witness: "what are your hours" contains the keyword "hours"
of the active `orgA` pattern; the cascade decides at stage 1a with score 1
and never calls the embedding provider. -/
theorem exact_lexical_hit_witness :
    (∃ p, exactPass "what are your hours" [wPattern] = some p ∧ p.isActive = true ∧
      keywordContained "what are your hours" p = true ∧
      (validate defaultConfig 5 "what are your hours" = ValidationResult.pass →
        (cascade (fun _ _ => 0) (fun _ _ => 0) defaultConfig (some [1, 0]) "llm" 5
            "what are your hours" [wPattern]).decision
          = ⟨false, some wPattern.cachedResponse, Stage.s1a, Method.exactLex, 1,
              some wPattern⟩)) ∧
    (cascade (fun _ _ => 0) (fun _ _ => 0) defaultConfig (some [1, 0]) "llm" 5
        "what are your hours" [wPattern]).embeddingCalled = false := by
  have h := exact_lexical_hit (fun _ _ => 0) (fun _ _ => 0) defaultConfig (some [1, 0])
    "llm" 5 "what are your hours" [wPattern]
    ⟨wPattern, List.mem_singleton.2 rfl, by decide, by decide⟩
  obtain ⟨⟨p, hp1, hp2, hp3, hp4⟩, h2⟩ := h
  have hpw : p = wPattern := by
    have := hp1
    rw [show exactPass "what are your hours" [wPattern] = some wPattern from by decide]
      at this
    injection this with h3
    exact h3.symm
  subst hpw
  exact ⟨⟨wPattern, hp1, hp2, hp3, hp4⟩, h2⟩

/-- Claim C6: a pattern whose success rate falls below
`deactivationSuccessFloor` once at least `deactivationMinSamples` feedback
observations are in becomes inactive, stays stored by `recordFeedback`
(updated in place, never removed), is excluded from every namespace's
active snapshot, and can never again be the match behind a cascade
decision. -/
theorem pattern_auto_deactivation (cfg : SPLConfig) (p : Pattern) (success : Bool)
    (h1 : cfg.deactivationMinSamples ≤ p.feedbackCount + 1)
    (h2 : nextRate p success < cfg.deactivationSuccessFloor) :
    (updateSuccessRate cfg p success).isActive = false ∧
    (∀ store : List Pattern, p ∈ store →
      updateSuccessRate cfg p success ∈ recordFeedback cfg store p.id success) ∧
    (∀ (store : List Pattern) (ns : String),
      updateSuccessRate cfg p success ∉ getActivePatterns store ns) ∧
    (∀ (fuzzy : String → String → ℚ) (sim : List ℚ → List ℚ → ℚ) (cfg2 : SPLConfig)
        (er : Option (List ℚ)) (fb : String) (rate : Nat) (store : List Pattern)
        (ns utt : String),
      (cascadeNs fuzzy sim cfg2 er fb rate store ns utt).decision.matched
        ≠ some (updateSuccessRate cfg p success)) := by
  have hinact : (updateSuccessRate cfg p success).isActive = false := by
    simp only [updateSuccessRate]
    rw [if_pos ⟨h1, h2⟩]
  refine ⟨hinact, ?_, ?_, ?_⟩
  · intro store hp
    unfold recordFeedback
    refine List.mem_map.2 ⟨p, hp, ?_⟩
    rw [if_pos (beq_self_eq_true p.id)]
  · intro store ns hmem
    have h3 := List.mem_filter.1 hmem
    have h4 : ((updateSuccessRate cfg p success).ns == ns) = true ∧
        (updateSuccessRate cfg p success).isActive = true := by
      have h5 := h3.2
      rw [Bool.and_eq_true] at h5
      exact h5
    rw [hinact] at h4
    exact absurd h4.2 (by simp)
  · intro fuzzy sim cfg2 er fb rate store ns utt hmatch
    have h6 := cascadeNs_matched_spec fuzzy sim cfg2 er fb rate store ns utt _ hmatch
    rw [hinact] at h6
    exact absurd h6.2.2 (by simp)

/-- Claim C6 witness: a fifth, negative observation on a pattern sitting
at rate 1/2 drops it to 2/5 < 3/5 and deactivates it under the default
configuration. -/
theorem pattern_auto_deactivation_witness :
    (updateSuccessRate defaultConfig wDeclining false).isActive = false ∧
    (∀ store : List Pattern, wDeclining ∈ store →
      updateSuccessRate defaultConfig wDeclining false
        ∈ recordFeedback defaultConfig store wDeclining.id false) ∧
    (∀ (store : List Pattern) (ns : String),
      updateSuccessRate defaultConfig wDeclining false ∉ getActivePatterns store ns) ∧
    (∀ (fuzzy : String → String → ℚ) (sim : List ℚ → List ℚ → ℚ) (cfg2 : SPLConfig)
        (er : Option (List ℚ)) (fb : String) (rate : Nat) (store : List Pattern)
        (ns utt : String),
      (cascadeNs fuzzy sim cfg2 er fb rate store ns utt).decision.matched
        ≠ some (updateSuccessRate defaultConfig wDeclining false)) :=
  pattern_auto_deactivation defaultConfig wDeclining false (by decide)
    (by norm_num [nextRate, wDeclining, wPattern, defaultConfig, Rat.mkRat_eq_div])

/-- Claim C7: no hit-count update is lost — executing any interleaving of
atomic `incrementHitCount` steps (the serialized per-pattern update path
§5 requires, which Convex's serializable mutations provide) leaves the
pattern's `hitCount` at its prior value plus exactly the number of hits
addressed to it. -/
theorem hitCount_no_lost_updates (store : List Pattern) (sched : List Nat) (id : Nat)
    (h : ∃ p ∈ store, p.id = id) :
    hitCountOf (applyHits store sched) id = hitCountOf store id + countHits id sched := by
  induction sched generalizing store with
  | nil =>
    simp [applyHits, countHits]
  | cons j js ih =>
    have hstep := hitCountOf_increment store j id h
    have hpres := increment_keeps_presence store j id h
    have hih := ih (incrementHitCount store j) hpres
    unfold applyHits at hih ⊢
    rw [List.foldl_cons, hih, hstep, countHits_cons]
    omega

/-- Claim C7 witness: three hits on pattern 1 (with an unrelated hit on
pattern 2 interleaved) raise its count from 3 to exactly 6. -/
theorem hitCount_no_lost_updates_witness :
    hitCountOf (applyHits [wPattern] [1, 1, 2, 1]) 1
      = hitCountOf [wPattern] 1 + countHits 1 [1, 1, 2, 1] ∧
    hitCountOf (applyHits [wPattern] [1, 1, 2, 1]) 1 = 6 :=
  ⟨hitCount_no_lost_updates [wPattern] [1, 1, 2, 1] 1
      ⟨wPattern, List.mem_singleton.2 rfl, rfl⟩,
   by decide⟩

/-- Claim C8 counterexample: `ingest` called with `text` present (the
empty string) and `chunks` absent provides one of the two, yet throws
"Must provide either text or chunks" instead of returning an
`{entryId, status}` record — JavaScript treats `""` as falsy in
`!args.text`. -/
theorem ingest_empty_text_counterexample :
    (IngestArgs.mk "org" none (some "") none none).text.isSome = true ∧
    ingest ⟨[], 0⟩ (IngestArgs.mk "org" none (some "") none none)
      = Except.error "Must provide either text or chunks" :=
  ⟨rfl, rfl⟩

/-- Claim C8 (amended): `ingest` throws "Must provide either text or
chunks" — adding nothing, since the thrown Convex action aborts — exactly
when `text` is absent or empty and `chunks` is absent; whenever `text` is
non-empty or `chunks` is present (even as an empty array) it returns a
record carrying `entryId` and `status`. -/
theorem ingest_requires_content (st : RagState) (args : IngestArgs) :
    ((jsTruthyText args.text = false ∧ args.chunks = none) →
      ingest st args = Except.error "Must provide either text or chunks") ∧
    ((jsTruthyText args.text = true ∨ args.chunks.isSome = true) →
      ∃ st2 r, ingest st args = Except.ok (st2, r)) := by
  constructor
  · rintro ⟨h1, h2⟩
    unfold ingest
    rw [h1, h2]
    rfl
  · intro h
    unfold ingest
    rcases h with h | h
    · rw [h]
      simp only [Bool.not_true, Bool.false_and, Bool.false_eq_true, if_false, if_true]
      exact ⟨_, _, rfl⟩
    · have hnone : args.chunks.isNone = false := by
        cases hc : args.chunks with
        | none =>
          rw [hc] at h
          exact absurd h (by simp)
        | some l => rfl
      rw [hnone]
      simp only [Bool.and_false, Bool.false_eq_true, if_false]
      by_cases ht : jsTruthyText args.text
      · rw [ht]
        simp only [if_true]
        exact ⟨_, _, rfl⟩
      · rw [Bool.not_eq_true] at ht
        rw [ht]
        simp only [Bool.false_eq_true, if_false]
        exact ⟨_, _, rfl⟩

/-- Claim C8 witness: with no text and no chunks the error is thrown;
with a non-empty text a record comes back. -/
theorem ingest_requires_content_witness :
    ingest ⟨[], 0⟩ (IngestArgs.mk "org" none none none none)
      = Except.error "Must provide either text or chunks" ∧
    ∃ st2 r, ingest ⟨[], 0⟩ (IngestArgs.mk "org" none (some "We open at 9.") none none)
      = Except.ok (st2, r) :=
  ⟨(ingest_requires_content ⟨[], 0⟩ (IngestArgs.mk "org" none none none none)).1
      ⟨rfl, rfl⟩,
   (ingest_requires_content ⟨[], 0⟩
      (IngestArgs.mk "org" none (some "We open at 9.") none none)).2 (Or.inl rfl)⟩

/-- Claim C9: `organizations.create` is idempotent on slug — when a row
with the requested slug already exists, it returns that row's id (for any
`name`/`status`/`config` arguments) and leaves the table unchanged, so
this entry point never inserts a second organization with the same slug. -/
theorem orgCreate_idempotent_on_slug (t : OrgTable) (args : OrgCreateArgs) (now : Nat)
    (d : OrgDoc) (h : uniqueBySlug t args.slug = Except.ok (some d)) :
    orgCreate t args now = Except.ok (t, d.id) ∧ d ∈ t.rows ∧ d.slug = args.slug := by
  have hd := uniqueBySlug_some t args.slug d h
  refine ⟨?_, hd.1, hd.2⟩
  unfold orgCreate
  rw [h]

/-- Claim C9 witness: creating "acme" again, with different name, status
and config, returns the stored row's id 7 and changes nothing. -/
theorem orgCreate_idempotent_on_slug_witness :
    orgCreate wOrgTable
        (OrgCreateArgs.mk "acme" "Acme Rebrand" (some "cus_9") OrgStatus.inactive
          (some "v2")) 999
      = Except.ok (wOrgTable, 7) ∧
    (OrgDoc.mk 7 "acme" "Acme Diner" none OrgStatus.active none 100) ∈ wOrgTable.rows ∧
    (OrgDoc.mk 7 "acme" "Acme Diner" none OrgStatus.active none 100).slug = "acme" :=
  orgCreate_idempotent_on_slug wOrgTable
    (OrgCreateArgs.mk "acme" "Acme Rebrand" (some "cus_9") OrgStatus.inactive (some "v2"))
    999 (OrgDoc.mk 7 "acme" "Acme Diner" none OrgStatus.active none 100) rfl

/-- Claim C10: on a well-formed table (at most one row per number),
`phoneConfigs.create` throws "already configured" — inserting nothing,
the transaction aborting — exactly when some row with that phone number
exists, active or not; and after `phoneConfigs.deactivate` soft-deletes a
number, `create` for that number still throws, so a deactivated number
can never be re-created through `create`. -/
theorem phoneCreate_rejects_existing (t : PhoneTable) (args : PhoneCreateArgs) (now : Nat)
    (h : (t.rows.filter (fun c => c.phoneNumber == args.phoneNumber)).length ≤ 1) :
    (phoneCreate t args now
        = Except.error ("Phone number " ++ args.phoneNumber ++ " already configured")
      ↔ ∃ c ∈ t.rows, c.phoneNumber = args.phoneNumber) ∧
    (∀ (t2 : PhoneTable) (now2 : Nat) (args2 : PhoneCreateArgs) (now3 : Nat),
      args2.phoneNumber = args.phoneNumber →
      phoneDeactivate t args.phoneNumber now2 = Except.ok t2 →
      phoneCreate t2 args2 now3
        = Except.error ("Phone number " ++ args2.phoneNumber ++ " already configured")) := by
  constructor
  · constructor
    · intro herr
      rcases uniqueByPhone_of_short t args.phoneNumber h with ⟨hf, hu⟩ | ⟨c, hf, hu⟩
      · exfalso
        unfold phoneCreate at herr
        rw [hu] at herr
        exact absurd herr (by simp)
      · have hm : c ∈ t.rows.filter (fun r => r.phoneNumber == args.phoneNumber) := by
          rw [hf]
          exact List.mem_singleton.2 rfl
        have h2 := List.mem_filter.1 hm
        exact ⟨c, h2.1, eq_of_beq h2.2⟩
    · intro hex
      exact phoneCreate_error_of_exists t args now h hex
  · intro t2 now2 args2 now3 hnum hdeact
    obtain ⟨c, hu, hrows⟩ := phoneDeactivate_ok_shape t args.phoneNumber now2 t2 hdeact
    have hc := uniqueByPhone_some t args.phoneNumber c hu
    have hpres : ∀ r : PhoneConfig,
        ((fun r => if r.id == c.id then { r with isActive := false, updatedAt := now2 }
          else r) r).phoneNumber = r.phoneNumber := by
      intro r
      simp only
      split <;> rfl
    have hlen : (t2.rows.filter (fun r => r.phoneNumber == args2.phoneNumber)).length ≤ 1 := by
      rw [hrows, hnum, filterPhone_map_preserve t.rows _ hpres]
      exact h
    have hex2 : ∃ r ∈ t2.rows, r.phoneNumber = args2.phoneNumber := by
      refine ⟨(fun r => if r.id == c.id then { r with isActive := false, updatedAt := now2 }
          else r) c, ?_, ?_⟩
      · rw [hrows]
        exact List.mem_map.2 ⟨c, hc.1, rfl⟩
      · rw [hpres c, hnum]
        exact hc.2
    exact phoneCreate_error_of_exists t2 args2 now3 hlen hex2

/-- Claim C10 witness: with one configured row for "+15551234567",
creating it again throws, and after deactivating it, creating it again
still throws. -/
theorem phoneCreate_rejects_existing_witness :
    (phoneCreate wPhoneTable
        (PhoneCreateArgs.mk "+15551234567" "org2" "pharmacy" "[]" none) 60
        = Except.error ("Phone number " ++ "+15551234567" ++ " already configured")
      ↔ ∃ c ∈ wPhoneTable.rows, c.phoneNumber = "+15551234567") ∧
    (∀ (t2 : PhoneTable) (now2 : Nat) (args2 : PhoneCreateArgs) (now3 : Nat),
      args2.phoneNumber = "+15551234567" →
      phoneDeactivate wPhoneTable "+15551234567" now2 = Except.ok t2 →
      phoneCreate t2 args2 now3
        = Except.error ("Phone number " ++ args2.phoneNumber ++ " already configured")) :=
  phoneCreate_rejects_existing wPhoneTable
    (PhoneCreateArgs.mk "+15551234567" "org2" "pharmacy" "[]" none) 60 (by decide)
